import Mathlib

/-!
Verification development for the `st` (rune) compiler front end.

This file gives a shallow embedding, in Lean, of the parts of the code that
the specification talks about: the lexer (`crates/rune/src/parsing/lexer.rs`),
the worker task queue (`crates/rune/src/worker/mod.rs`), the index-set code
generator (`crates/rune/src/compile/expr_index_set.rs`), path peeking
(`crates/rune/src/ast/path.rs`) and character-literal resolution
(`crates/rune/src/ast/lit_char.rs`), together with theorems checking the
specification's statements against these definitions.

Modelling conventions:
* Rust machine integers holding byte positions are `Nat` (they never
  overflow on the inputs considered and the code never relies on wrapping).
* Byte positions advance by `Char.utf8Size`, matching the Rust `str`
  byte-offset convention for spans.
* Unicode character classes (`char::is_alphanumeric` and friends) are
  modelled on their ASCII fragment; all pinned inputs are ASCII.
* Loops that consume at least one character per iteration are structural
  recursions over the remaining character list; the top-level token loop,
  which can splice buffered tokens, takes explicit fuel and returns `none`
  when the fuel runs out (any fuel larger than twice the input size is
  sufficient for the inputs used here).
-/

namespace St

/-- Byte span, half open: `[start, stop)`.  Mirrors `runestick::Span`
(`start`/`end` fields; `end` is a reserved word in Lean, hence `stop`). -/
structure Span where
  start : Nat
  stop : Nat
deriving DecidableEq, Repr

/-- Mirrors `Span::point`. -/
def Span.point (p : Nat) : Span := ⟨p, p⟩

/-- Modelled from the spec: `runestick::Span::narrow` (the `runestick`
sources defining `Span` methods are not part of this excerpt); it narrows
the span by `n` bytes on each side, used by literal resolution. -/
def Span.narrow (s : Span) (n : Nat) : Span := ⟨s.start + n, s.stop - n⟩

/-- Mirrors `ast::Delimiter`. -/
inductive Delimiter where
  | Parenthesis
  | Brace
  | Bracket
deriving DecidableEq, Repr

/-- Mirrors `ast::NumberBase`. -/
inductive NumberBase where
  | Hex
  | Binary
  | Octal
  | Decimal
deriving DecidableEq, Repr

/-- Mirrors `ast::NumberSourceText`. -/
structure NumberSourceText where
  isFractional : Bool
  base : NumberBase
deriving DecidableEq, Repr

/-- Mirrors `ast::NumberSource` (only the `Text` form is produced by the
lexer; `Inline` numbers come from macros, outside this excerpt). -/
inductive NumberSource where
  | Text (s : NumberSourceText)
deriving DecidableEq, Repr

/-- Mirrors `ast::StringSource` (the lexer only produces `Text`). -/
inductive StringSource where
  | Text
deriving DecidableEq, Repr

/-- Mirrors `ast::CopySource<char>`: either an inline value or a marker
that the value must be re-derived from the source text. -/
inductive CopySource where
  | Inline (c : Char)
  | Text
deriving DecidableEq, Repr

/-- Mirrors `ast::LitStrSourceText`. -/
structure LitStrSourceText where
  escaped : Bool
  wrapped : Bool
deriving DecidableEq, Repr

/-- Mirrors `ast::LitStrSource` (the lexer only produces `Text`). -/
inductive LitStrSource where
  | Text (s : LitStrSourceText)
deriving DecidableEq, Repr

/-- Mirrors the fragment of `ast::Kind` used by the excerpted sources:
every variant named here appears literally in `lexer.rs` or `path.rs`. -/
inductive Kind where
  | Open (d : Delimiter)
  | Close (d : Delimiter)
  | Underscore
  | Comma
  | Colon
  | ColonColon
  | Pound
  | Dot
  | DotDot
  | SemiColon
  | Eq
  | EqEq
  | BangEq
  | Plus
  | PlusEq
  | Dash
  | DashEq
  | Div
  | SlashEq
  | Star
  | StarEq
  | Perc
  | PercEq
  | Amp
  | AmpEq
  | AmpAmp
  | Caret
  | CaretEq
  | Pipe
  | PipeEq
  | PipePipe
  | Gt
  | GtEq
  | GtGt
  | GtGtEq
  | Lt
  | LtEq
  | LtLt
  | LtLtEq
  | Rocket
  | Arrow
  | Bang
  | QuestionMark
  | At
  | Dollar
  | Tilde
  | Ident (s : StringSource)
  | Label (s : StringSource)
  | LitNumber (s : NumberSource)
  | LitChar (s : CopySource)
  | LitByte (s : CopySource)
  | LitStr (s : LitStrSource)
  | LitByteStr (s : LitStrSource)
  | Template
  | Fn
  | Crate
  | Super
  | Self_
  | SelfType

/-- Whether a token kind is the `Dot` punctuation. -/
def Kind.isDot : Kind → Bool
  | .Dot => true
  | _ => false

/-- Mirrors `ast::Token`. -/
structure Token where
  kind : Kind
  span : Span

/-- Mirrors `LexerMode`. -/
inductive LexerMode where
  | Default (level : Nat)
  | Template (expressions : Nat)
deriving DecidableEq, Repr

/-- Mirrors the fragment of `ParseErrorKind` raised by the excerpted code. -/
inductive ParseErrorKind where
  | ExpectedCharClose
  | UnterminatedCharLit
  | ExpectedByteClose
  | UnterminatedByteLit
  | UnterminatedStrLit
  | UnterminatedByteStrLit
  | ExpectedEscape
  | UnexpectedCloseBrace
  | UnexpectedEof
  | ExpectedTemplateMode
  | BadLexerMode (mode : LexerMode) (expected : LexerMode)
  | UnexpectedChar (c : Char)
  | BadSlice
  | BadCharLiteral

/-- Mirrors `ParseError` (span plus structured kind). -/
structure ParseError where
  span : Span
  kind : ParseErrorKind

/-- Mirrors `SourceIter`: a forward cursor over the source.  `pos` is the
byte offset consumed so far, `rest` the remaining characters and `srcLen`
the total byte length of the source. -/
structure SourceIter where
  srcLen : Nat
  pos : Nat
  rest : List Char

/-- Total UTF-8 byte length of a character list. -/
def utf8Len (s : List Char) : Nat := (s.map Char.utf8Size).sum

/-- ASCII fragment of Rust `char::is_whitespace` (White_Space property);
non-ASCII whitespace is outside the model. -/
def isWhitespaceR (c : Char) : Bool :=
  c = ' ' || c = '\t' || c = '\n' || c = '\r' || c.val = 11 || c.val = 12

/-- ASCII fragment of Rust `char::is_alphanumeric`. -/
def isAlphanumericR (c : Char) : Bool :=
  ('a' ≤ c && c ≤ 'z') || ('A' ≤ c && c ≤ 'Z') || ('0' ≤ c && c ≤ '9')

/-- ASCII fragment of Rust `char::is_numeric`. -/
def isNumericR (c : Char) : Bool := '0' ≤ c && c ≤ '9'

/-- ASCII fragment of Rust `char::is_control` (category Cc). -/
def isControlR (c : Char) : Bool := c.val < 32 || c.val = 127

/-- The identifier-continue set from `Lexer::next_ident`:
`'a'..='z' | 'A'..='Z' | '_' | '0'..='9'`. -/
def identContinue (c : Char) : Bool :=
  ('a' ≤ c && c ≤ 'z') || ('A' ≤ c && c ≤ 'Z') || c = '_' || ('0' ≤ c && c ≤ '9')

/-- Modelled from the spec: the keyword table behind `ast::Kind::from_keyword`
("keyword table lookup first, falls back to a generic identifier tag"); the
table itself is outside the excerpt, so only keywords evidenced by the
excerpted sources are included.  None of the identifiers appearing in the
pinned lexer examples is a keyword under any reading of the spec. -/
def fromKeyword (s : List Char) : Option Kind :=
  match s with
  | ['f', 'n'] => some .Fn
  | ['c', 'r', 'a', 't', 'e'] => some .Crate
  | ['s', 'u', 'p', 'e', 'r'] => some .Super
  | ['s', 'e', 'l', 'f'] => some .Self_
  | ['S', 'e', 'l', 'f'] => some .SelfType
  | _ => none

/-- Mirrors the scan loop of `Lexer::next_ident`: consume identifier
characters, returning the consumed characters (in order), the final byte
position and the remaining input. -/
def identLoop (pos : Nat) (rest : List Char) (acc : List Char) :
    List Char × Nat × List Char :=
  match rest with
  | [] => (acc.reverse, pos, [])
  | c :: r =>
    if identContinue c then identLoop (pos + c.utf8Size) r (c :: acc)
    else (acc.reverse, pos, c :: r)

/-- Mirrors the body loop of `Lexer::next_number_literal`: consume
alphanumerics, and at most one `.` while not yet fractional — the dot is
consumed first, and only afterwards the peeked character decides whether
the scan continues.  Returns the final position, the remaining input and
the `is_fractional` flag. -/
def numberLoop (pos : Nat) (rest : List Char) (frac : Bool) :
    Nat × List Char × Bool :=
  match rest with
  | [] => (pos, [], frac)
  | c :: r =>
    if isAlphanumericR c then numberLoop (pos + c.utf8Size) r frac
    else if c = '.' && !frac then
      if (r.head?.map isNumericR).getD false then numberLoop (pos + 1) r true
      else (pos + 1, r, true)
    else (pos, c :: r, frac)

/-- Mirrors `Lexer::next_number_literal` (base selection followed by the
body loop); `c` is the already-consumed first digit and `pos`/`rest` the
cursor right after it. -/
def nextNumberLiteral (start : Nat) (c : Char) (pos : Nat) (rest : List Char) :
    Token × Nat × List Char :=
  let (base, pos, rest) :=
    if c = '0' then
      match rest with
      | 'x' :: r => (NumberBase.Hex, pos + 1, r)
      | 'b' :: r => (NumberBase.Binary, pos + 1, r)
      | 'o' :: r => (NumberBase.Octal, pos + 1, r)
      | _ => (NumberBase.Decimal, pos, rest)
    else (NumberBase.Decimal, pos, rest)
  let (pos, rest, frac) := numberLoop pos rest false
  (⟨.LitNumber (.Text ⟨frac, base⟩), ⟨start, pos⟩⟩, pos, rest)

/-- Mirrors the loop of `Lexer::next_char_or_label`, including the final
label-versus-character classification.  `start` points at the opening `'`,
which the caller has already consumed. -/
def charOrLabelLoop (srcLen start : Nat) (pos : Nat) (rest : List Char)
    (isLabel : Bool) (count : Nat) :
    Except ParseError (Token × Nat × List Char) :=
  match rest with
  | [] =>
    if isLabel then .error ⟨⟨start, srcLen⟩, .ExpectedCharClose⟩
    else .ok (⟨.LitChar .Text, ⟨start, pos⟩⟩, pos, [])
  | c :: r =>
    if c = '\\' then
      match r with
      | [] =>
        -- the second `next()` hits end of input; the loop then ends with
        -- `is_label = false` and produces a character token
        .ok (⟨.LitChar .Text, ⟨start, pos + 1⟩⟩, pos + 1, [])
      | c2 :: r2 => charOrLabelLoop srcLen start (pos + 1 + c2.utf8Size) r2 false (count + 1)
    else if c = '\'' then
      .ok (⟨.LitChar .Text, ⟨start, pos + 1⟩⟩, pos + 1, r)
    else if ('0' ≤ c && c ≤ '9') || ('a' ≤ c && c ≤ 'z') then
      charOrLabelLoop srcLen start (pos + c.utf8Size) r isLabel (count + 1)
    else if isControlR c then .error ⟨⟨start, pos⟩, .UnterminatedCharLit⟩
    else if isLabel && count > 0 then
      .ok (⟨.Label .Text, ⟨start, pos⟩⟩, pos, c :: r)
    else charOrLabelLoop srcLen start (pos + c.utf8Size) r false (count + 1)

/-- Mirrors the loop of `Lexer::next_lit_byte`; the caller has consumed the
`b`, the quote, and the first content character already. -/
def litByteLoop (start : Nat) (pos : Nat) (rest : List Char) :
    Except ParseError (Token × Nat × List Char) :=
  match rest with
  | [] => .error ⟨⟨start, pos⟩, .ExpectedByteClose⟩
  | c :: r =>
    if c = '\\' then
      match r with
      | [] => .error ⟨⟨start, pos + 1⟩, .ExpectedByteClose⟩
      | c2 :: r2 => litByteLoop start (pos + 1 + c2.utf8Size) r2
    else if c = '\'' then .ok (⟨.LitByte .Text, ⟨start, pos + 1⟩⟩, pos + 1, r)
    else if isControlR c then
      .error ⟨⟨start, pos + c.utf8Size⟩, .UnterminatedByteLit⟩
    else litByteLoop start (pos + c.utf8Size) r

/-- Mirrors the loop of `Lexer::next_str`: scan to the closing `"`,
recording whether an escape occurred (the escaped character itself is only
peeked, not consumed, exactly as in the source). -/
def strLoop (errKind : ParseErrorKind) (srcLen start : Nat) (pos : Nat)
    (rest : List Char) (escaped : Bool) :
    Except ParseError (Bool × Nat × List Char) :=
  match rest with
  | [] => .error ⟨⟨start, pos⟩, errKind⟩
  | c :: r =>
    if c = '"' then .ok (escaped, pos + 1, r)
    else if c = '\\' then
      match r with
      | [] => .error ⟨⟨start, srcLen⟩, .ExpectedEscape⟩
      | _ :: _ => strLoop errKind srcLen start (pos + 1) r true
    else strLoop errKind srcLen start (pos + c.utf8Size) r escaped

/-- Mirrors `Lexer::consume_line`. -/
def consumeLine (pos : Nat) (rest : List Char) : Nat × List Char :=
  match rest with
  | [] => (pos, [])
  | c :: r => if c = '\n' then (pos + 1, r) else consumeLine (pos + c.utf8Size) r

/-- Mirrors `Lexer` (cursor, mode stack, buffered tokens).  The mode stack
grows at the head of the list (`modes.head?` is `Vec::last`), and the token
buffer's front is the head of the list. -/
structure Lexer where
  iter : SourceIter
  modes : List LexerMode
  buffer : List Token

/-- Mirrors `Lexer::new`. -/
def Lexer.new (s : List Char) : Lexer := ⟨⟨utf8Len s, 0, s⟩, [], []⟩

/-- Mirrors `LexerModes::pop`: pop the top frame (an empty stack yields the
default frame) and require it to equal the expected frame. -/
def modesPop (modes : List LexerMode) (sp : Span) (expected : LexerMode) :
    Except ParseError (List LexerMode) :=
  let (mode, ms) :=
    match modes with
    | [] => (LexerMode.Default 0, ([] : List LexerMode))
    | m :: ms => (m, ms)
  if mode = expected then .ok ms
  else .error ⟨sp, .BadLexerMode mode expected⟩

/-- Mirrors the loop of `Lexer::template_next`.  `start` is the position at
which `template_next` was entered (start of the current literal segment);
`pos`/`rest` the cursor; `escaped` whether an escape occurred in the
current segment.  The self-modifications of the Rust method are returned as
a whole new `Lexer`.  `LexerModes::expression_count` is inlined as the
match on the top mode frame. -/
def templateLoop (srcLen : Nat) (modes : List LexerMode) (buffer : List Token)
    (start : Nat) (pos : Nat) (rest : List Char) (escaped : Bool) :
    Except ParseError Lexer :=
  match rest with
  | [] => .error ⟨Span.point pos, .UnexpectedEof⟩
  | '{' :: r =>
    match modes with
    | .Template n :: ms =>
      let span : Span := ⟨start, pos⟩
      let hadString : Bool := start ≠ pos
      let buf1 : List Token :=
        if hadString then
          (if n > 0 then [⟨.Comma, span⟩] else [])
            ++ [⟨.LitStr (.Text ⟨escaped, false⟩), span⟩]
        else []
      let n1 := if hadString then n + 1 else n
      let buf2 : List Token := if n1 > 0 then [⟨.Comma, ⟨pos, pos + 1⟩⟩] else []
      .ok ⟨⟨srcLen, pos + 1, r⟩, .Default 1 :: .Template n1 :: ms,
        buffer ++ buf1 ++ buf2⟩
    | _ => .error ⟨⟨start, pos⟩, .ExpectedTemplateMode⟩
  | '}' :: _ => .error ⟨⟨pos, pos + 1⟩, .UnexpectedCloseBrace⟩
  | '\\' :: r =>
    match r with
    | [] => .error ⟨⟨start, srcLen⟩, .ExpectedEscape⟩
    | c2 :: r2 => templateLoop srcLen modes buffer start (pos + 1 + c2.utf8Size) r2 true
  | '`' :: r =>
    match modes with
    | .Template n :: ms =>
      let span : Span := ⟨start, pos⟩
      let hadString : Bool := start ≠ pos
      let buf1 : List Token :=
        if hadString then
          (if n > 0 then [⟨.Comma, span⟩] else [])
            ++ [⟨.LitStr (.Text ⟨escaped, false⟩), span⟩]
        else []
      let buf2 : List Token := [⟨.Close .Brace, ⟨pos, pos + 1⟩⟩]
      -- the final pop expects exactly the updated `Template` frame that is
      -- on top, so it always succeeds here and removes that frame
      .ok ⟨⟨srcLen, pos + 1, r⟩, ms, buffer ++ buf1 ++ buf2⟩
    | _ => .error ⟨⟨pos, pos + 1⟩, .ExpectedTemplateMode⟩
  | c :: r => templateLoop srcLen modes buffer start (pos + c.utf8Size) r escaped

/-- Mirrors `Lexer::template_next`. -/
def templateNext (lx : Lexer) : Except ParseError Lexer :=
  templateLoop lx.iter.srcLen lx.modes lx.buffer lx.iter.pos lx.iter.pos
    lx.iter.rest false

/-- Outcome of one non-template dispatch step of `Lexer::next`: either a
token is produced, or the outer loop continues with an updated lexer. -/
inductive StepOut where
  | emit (t : Token) (lx : Lexer)
  | again (lx : Lexer)

/-- Mirrors the `Default`-mode body of `Lexer::next` after the first
character `c` (at byte offset `start`) has been consumed: the two-character
operator match, then the single-character match.  `r` is the input after
`c`; `level` is the brace level of the current `Default` frame. -/
def defaultStep (srcLen : Nat) (modes : List LexerMode) (buffer : List Token)
    (level start : Nat) (c : Char) (r : List Char) :
    Except ParseError StepOut :=
  let pos1 := start + c.utf8Size
  let emit1 : Kind → Nat → List Char → Except ParseError StepOut := fun k pos rest =>
    .ok (.emit ⟨k, ⟨start, pos⟩⟩ ⟨⟨srcLen, pos, rest⟩, modes, buffer⟩)
  let wrapTok : Except ParseError (Token × Nat × List Char) →
      Except ParseError StepOut := fun res =>
    res.map fun (t, pos, rest) => .emit t ⟨⟨srcLen, pos, rest⟩, modes, buffer⟩
  match c, r with
  | '+', '=' :: r2 => emit1 .PlusEq (pos1 + 1) r2
  | '-', '=' :: r2 => emit1 .DashEq (pos1 + 1) r2
  | '*', '=' :: r2 => emit1 .StarEq (pos1 + 1) r2
  | '/', '=' :: r2 => emit1 .SlashEq (pos1 + 1) r2
  | '%', '=' :: r2 => emit1 .PercEq (pos1 + 1) r2
  | '&', '=' :: r2 => emit1 .AmpEq (pos1 + 1) r2
  | '^', '=' :: r2 => emit1 .CaretEq (pos1 + 1) r2
  | '|', '=' :: r2 => emit1 .PipeEq (pos1 + 1) r2
  | '/', '/' :: _ =>
    let (pos, rest) := consumeLine pos1 r
    .ok (.again ⟨⟨srcLen, pos, rest⟩, modes, buffer⟩)
  | ':', ':' :: r2 => emit1 .ColonColon (pos1 + 1) r2
  | '<', '=' :: r2 => emit1 .LtEq (pos1 + 1) r2
  | '>', '=' :: r2 => emit1 .GtEq (pos1 + 1) r2
  | '=', '=' :: r2 => emit1 .EqEq (pos1 + 1) r2
  | '!', '=' :: r2 => emit1 .BangEq (pos1 + 1) r2
  | '&', '&' :: r2 => emit1 .AmpAmp (pos1 + 1) r2
  | '|', '|' :: r2 => emit1 .PipePipe (pos1 + 1) r2
  | '<', '<' :: r2 =>
    match r2 with
    | '=' :: r3 => emit1 .LtLtEq (pos1 + 2) r3
    | _ => emit1 .LtLt (pos1 + 1) r2
  | '>', '>' :: r2 =>
    match r2 with
    | '=' :: r3 => emit1 .GtGtEq (pos1 + 2) r3
    | _ => emit1 .GtGt (pos1 + 1) r2
  | '.', '.' :: r2 => emit1 .DotDot (pos1 + 1) r2
  | '=', '>' :: r2 => emit1 .Rocket (pos1 + 1) r2
  | '-', '>' :: r2 => emit1 .Arrow (pos1 + 1) r2
  | 'b', '\'' :: r2 =>
    -- two `next()` calls: the quote, then the first content character
    match r2 with
    | [] => wrapTok (litByteLoop start (pos1 + 1) [])
    | c3 :: r3 => wrapTok (litByteLoop start (pos1 + 1 + c3.utf8Size) r3)
  | 'b', '"' :: r2 =>
    (strLoop .UnterminatedByteStrLit srcLen start (pos1 + 1) r2 false).map
      fun (esc, pos, rest) =>
        .emit ⟨.LitByteStr (.Text ⟨esc, true⟩), ⟨start, pos⟩⟩
          ⟨⟨srcLen, pos, rest⟩, modes, buffer⟩
  | _, _ =>
    match c with
    | '(' => emit1 (.Open .Parenthesis) pos1 r
    | ')' => emit1 (.Close .Parenthesis) pos1 r
    | '{' =>
      if level > 0 then
        .ok (.emit ⟨.Open .Brace, ⟨start, pos1⟩⟩
          ⟨⟨srcLen, pos1, r⟩, .Default (level + 1) :: modes, buffer⟩)
      else emit1 (.Open .Brace) pos1 r
    | '}' =>
      if level > 0 then
        match modesPop modes (Span.point pos1) (.Default level) with
        | .error e => .error e
        | .ok ms =>
          if level = 1 then
            -- end of an interpolated expression: bump the template's
            -- expression count and continue the outer loop
            match ms with
            | .Template n :: ms2 =>
              .ok (.again ⟨⟨srcLen, pos1, r⟩, .Template (n + 1) :: ms2, buffer⟩)
            | _ => .error ⟨⟨start, pos1⟩, .ExpectedTemplateMode⟩
          else
            .ok (.emit ⟨.Close .Brace, ⟨start, pos1⟩⟩ ⟨⟨srcLen, pos1, r⟩, ms, buffer⟩)
      else emit1 (.Close .Brace) pos1 r
    | '[' => emit1 (.Open .Bracket) pos1 r
    | ']' => emit1 (.Close .Bracket) pos1 r
    | '_' => emit1 .Underscore pos1 r
    | ',' => emit1 .Comma pos1 r
    | ':' => emit1 .Colon pos1 r
    | '#' => emit1 .Pound pos1 r
    | '.' => emit1 .Dot pos1 r
    | ';' => emit1 .SemiColon pos1 r
    | '=' => emit1 .Eq pos1 r
    | '+' => emit1 .Plus pos1 r
    | '-' => emit1 .Dash pos1 r
    | '/' => emit1 .Div pos1 r
    | '*' => emit1 .Star pos1 r
    | '&' => emit1 .Amp pos1 r
    | '>' => emit1 .Gt pos1 r
    | '<' => emit1 .Lt pos1 r
    | '!' => emit1 .Bang pos1 r
    | '?' => emit1 .QuestionMark pos1 r
    | '|' => emit1 .Pipe pos1 r
    | '%' => emit1 .Perc pos1 r
    | '^' => emit1 .Caret pos1 r
    | '@' => emit1 .At pos1 r
    | '$' => emit1 .Dollar pos1 r
    | '~' => emit1 .Tilde pos1 r
    | '"' =>
      (strLoop .UnterminatedStrLit srcLen start pos1 r false).map
        fun (esc, pos, rest) =>
          .emit ⟨.LitStr (.Text ⟨esc, true⟩), ⟨start, pos⟩⟩
            ⟨⟨srcLen, pos, rest⟩, modes, buffer⟩
    | '`' =>
      let span : Span := ⟨start, pos1⟩
      .ok (.again ⟨⟨srcLen, pos1, r⟩, .Template 0 :: modes,
        buffer ++ [⟨.Template, span⟩, ⟨.Open .Brace, span⟩]⟩)
    | '\'' => wrapTok (charOrLabelLoop srcLen start pos1 r true 0)
    | _ =>
      if ('a' ≤ c && c ≤ 'z') || ('A' ≤ c && c ≤ 'Z') then
        -- next_ident: keyword lookup, falling back to a generic identifier
        let (chars, pos, rest) := identLoop pos1 r []
        let kind := (fromKeyword (c :: chars)).getD (.Ident .Text)
        .ok (.emit ⟨kind, ⟨start, pos⟩⟩ ⟨⟨srcLen, pos, rest⟩, modes, buffer⟩)
      else if '0' ≤ c && c ≤ '9' then
        let (t, pos, rest) := nextNumberLiteral start c pos1 r
        .ok (.emit t ⟨⟨srcLen, pos, rest⟩, modes, buffer⟩)
      else .error ⟨⟨start, srcLen⟩, .UnexpectedChar c⟩

/-- Mirrors `Lexer::next`.  Returns `none` when the fuel runs out; one fuel
unit is spent per iteration of the outer `'outer` loop. -/
def Lexer.next (fuel : Nat) (lx : Lexer) : Option (Except ParseError (Option Token × Lexer)) :=
  match fuel with
  | 0 => none
  | fuel + 1 =>
    match lx.buffer with
    | t :: b => some (.ok (some t, { lx with buffer := b }))
    | [] =>
      match lx.modes.head?.getD (.Default 0) with
      | .Template _ =>
        match templateNext lx with
        | .error e => some (.error e)
        | .ok lx' => Lexer.next fuel lx'
      | .Default level =>
        match lx.iter.rest with
        | [] =>
          match modesPop lx.modes (Span.point lx.iter.pos) (.Default 0) with
          | .error e => some (.error e)
          | .ok ms => some (.ok (none, { lx with modes := ms }))
        | c :: r =>
          let start := lx.iter.pos
          if isWhitespaceR c then
            Lexer.next fuel { lx with iter := ⟨lx.iter.srcLen, start + c.utf8Size, r⟩ }
          else
            match defaultStep lx.iter.srcLen lx.modes lx.buffer level start c r with
            | .error e => some (.error e)
            | .ok (.emit t lx') => some (.ok (some t, lx'))
            | .ok (.again lx') => Lexer.next fuel lx'

/-- Drive `Lexer.next` to the end of input, collecting the tokens. -/
def tokenizeLoop (fuel : Nat) (lx : Lexer) (acc : List Token) :
    Option (Except ParseError (List Token)) :=
  match fuel with
  | 0 => none
  | fuel + 1 =>
    match Lexer.next (fuel + 1) lx with
    | none => none
    | some (.error e) => some (.error e)
    | some (.ok (none, _)) => some (.ok acc.reverse)
    | some (.ok (some t, lx')) => tokenizeLoop fuel lx' (t :: acc)

/-- Tokenize a whole source with the given fuel. -/
def tokenize (fuel : Nat) (s : List Char) : Option (Except ParseError (List Token)) :=
  tokenizeLoop fuel (Lexer.new s) []

/-! ### Worker task queue (`crates/rune/src/worker/mod.rs`) -/

/-- Mirrors `worker::Task`; the payloads (source ids, import data) are
abstracted to a numeric identifier, which is all `Worker::run`'s control
flow inspects. -/
inductive Task where
  | loadFile (id : Nat)
  | expandImport (id : Nat)
  | expandWildcardImport (w : Nat)
deriving DecidableEq, Repr

/-- Whether a task is a deferred wildcard import. -/
def Task.isWildcard : Task → Bool
  | .expandWildcardImport _ => true
  | _ => false

/-- Observable events of one `Worker::run` invocation, in order.  A
`processed` event with `failed = true` corresponds to one error pushed on
the error sink; likewise for `resolvedWildcard`. -/
inductive WEvent where
  | processed (t : Task) (failed : Bool)
  | deferred (w : Nat)
  | resolvedWildcard (w : Nat) (failed : Bool)
deriving DecidableEq, Repr

/-- Whether an event is the resolution of a wildcard import. -/
def WEvent.isResolved : WEvent → Bool
  | .resolvedWildcard _ _ => true
  | _ => false

/-- Errors recorded on the error sink, in push order. -/
inductive WErr where
  | task (t : Task)
  | wildcard (w : Nat)
deriving DecidableEq, Repr

/-- The error sink contents determined by an event trace (mirrors the
`self.errors.push(..)` calls, which happen exactly at the failing events,
in trace order). -/
def errorsOf (ev : List WEvent) : List WErr :=
  ev.filterMap fun e =>
    match e with
    | .processed t true => some (.task t)
    | .resolvedWildcard w true => some (.wildcard w)
    | _ => none

/-- The wildcard identifiers deferred by a trace, in order. -/
def deferredOf (ev : List WEvent) : List Nat :=
  ev.filterMap fun e =>
    match e with
    | .deferred w => some w
    | _ => none

/-- Mirrors the `while let Some(task) = self.queue.pop_front()` loop of
`Worker::run`.  `env t = (new, ok)` abstracts processing one non-wildcard
task: `new` are the tasks it pushes onto the back of the queue (indexing
and import expansion push tasks even when they later fail, matching the
`&mut self.queue` threading in the source) and `ok` whether it succeeded
(`ok = false` pushes one error).  Wildcard-import tasks are only appended
to the deferred list.  The loop may enqueue unboundedly, so it takes fuel;
`none` means the fuel ran out before the queue drained.  On success it
returns the event trace and the deferred wildcard list. -/
def drain (env : Task → List Task × Bool) :
    Nat → List Task → Option (List WEvent × List Nat)
  | _, [] => some ([], [])
  | 0, _ :: _ => none
  | fuel + 1, t :: queue =>
    match t with
    | .expandWildcardImport w =>
      (drain env fuel queue).map fun (ev, ws) => (.deferred w :: ev, w :: ws)
    | _ =>
      let (new, ok) := env t
      (drain env fuel (queue ++ new)).map fun (ev, ws) =>
        (WEvent.processed t (!ok) :: ev, ws)

/-- Mirrors the `for wildcard_import in wildcard_imports` loop after the
queue has drained: each deferred wildcard import is processed exactly once,
in order; `envW w` tells whether `process_local` succeeds. -/
def resolveAll (envW : Nat → Bool) (ws : List Nat) : List WEvent :=
  ws.map fun w => .resolvedWildcard w !(envW w)

/-- Mirrors `Worker::run`: drain the queue to a fixed point, then resolve
the deferred wildcard imports. -/
def workerRun (env : Task → List Task × Bool) (envW : Nat → Bool)
    (fuel : Nat) (queue : List Task) : Option (List WEvent) :=
  (drain env fuel queue).map fun (ev, ws) => ev ++ resolveAll envW ws

/-! ### Index-set code generation (`crates/rune/src/compile/expr_index_set.rs`) -/

/-- Modelled from the spec: the compiler's two-state `needs` flag ("`Value`
(the enclosing context consumes a result ...) or `None`"); the `Needs` type
itself lives outside the excerpt. -/
inductive Needs where
  | Value
  | None_
deriving DecidableEq, Repr

/-- Mirrors `needs.value()`. -/
def Needs.needsValue : Needs → Bool
  | .Value => true
  | .None_ => false

/-- The instructions the excerpted lowering emits (`runestick::Inst` is
outside the excerpt): the two concrete instructions it names, plus an
opaque tag for instructions emitted by sub-expression lowering. -/
inductive Inst where
  | IndexSet
  | UnitValue
  | op (n : Nat)
deriving DecidableEq, Repr

/-- Expressions, as far as the index-set lowering observes them: a leaf
stands for an arbitrary sub-expression whose lowering appends the given
instructions for a given needs flag, and `indexSet` is
`ast::ExprIndexSet { target, index, value }`. -/
inductive CExpr where
  | leaf (code : Needs → List Inst)
  | indexSet (target index value : CExpr)

/-- Mirrors `Compile<(&ast::ExprIndexSet, Needs)>::compile`, threading the
instruction sink (`self.asm`, an append-only list) explicitly: compile
`value`, `index`, `target` each with `Needs::Value`, push `IndexSet`, and
push a unit exactly when a value is needed. -/
def compileExpr : CExpr → Needs → List Inst → List Inst
  | .leaf f, needs, asm => asm ++ f needs
  | .indexSet t i v, needs, asm =>
    let asm := compileExpr v .Value asm
    let asm := compileExpr i .Value asm
    let asm := compileExpr t .Value asm
    let asm := asm ++ [Inst.IndexSet]
    if needs.needsValue then asm ++ [Inst.UnitValue] else asm

/-! ### Path peeking (`crates/rune/src/ast/path.rs`) -/

/-- Mirrors `impl Peek for PathSegment`: `matches!(peek!(t1).kind,
Ident(_) | Crate | Super | SelfType)`, where the `peek!` macro returns
`false` on a missing token. -/
def pathSegmentPeek (t1 : Option Token) (_t2 : Option Token) : Bool :=
  match t1 with
  | none => false
  | some t =>
    match t.kind with
    | .Ident _ => true
    | .Crate => true
    | .Super => true
    | .SelfType => true
    | _ => false

/-- Mirrors `impl Peek for Path`: a leading `::`, or a first path
segment. -/
def pathPeek (t1 : Option Token) (t2 : Option Token) : Bool :=
  match t1 with
  | none => false
  | some t =>
    (match t.kind with
     | .ColonColon => true
     | _ => false) || pathSegmentPeek (some t) t2

/-- Mirrors the acceptance condition of `impl Parse for PathSegment`: the
token kinds for which `parse` succeeds (everything else is a
`TokenMismatch` parse error). -/
def pathSegmentParseAccepts (k : Kind) : Bool :=
  match k with
  | .Ident _ => true
  | .Crate => true
  | .Super => true
  | .Self_ => true
  | .SelfType => true
  | _ => false

/-! ### Character-literal resolution (`crates/rune/src/ast/lit_char.rs`) -/

/-- Drop the first `n` bytes of a character list; `none` when `n` is not a
character boundary or exceeds the text. -/
def dropBytes : List Char → Nat → Option (List Char)
  | l, 0 => some l
  | [], _ + 1 => none
  | c :: r, n + 1 =>
    if c.utf8Size ≤ n + 1 then dropBytes r (n + 1 - c.utf8Size) else none

/-- Take the first `n` bytes of a character list; `none` when `n` is not a
character boundary or exceeds the text. -/
def takeBytes : List Char → Nat → Option (List Char)
  | _, 0 => some []
  | [], _ + 1 => none
  | c :: r, n + 1 =>
    if c.utf8Size ≤ n + 1 then (takeBytes r (n + 1 - c.utf8Size)).map (c :: ·)
    else none

/-- Modelled from the spec: `runestick::Source::source(span)` (outside the
excerpt) returns the text at the span's byte range, or `None` when the
range is invalid. -/
def sourceSlice (src : List Char) (sp : Span) : Option (List Char) :=
  if sp.start ≤ sp.stop then
    (dropBytes src sp.start).bind fun r => takeBytes r (sp.stop - sp.start)
  else none

/-- Modelled from the spec: `ast::utils::parse_char_escape` (outside the
excerpt), "a small escape-processing routine" — consume one escape
sequence after the backslash from the iterator and return the decoded
character with the remaining characters.  Only the simple one-character
escapes are modelled; no theorem below depends on the escape alphabet. -/
def parseCharEscape : List Char → Except ParseErrorKind (Char × List Char)
  | [] => .error .BadCharLiteral
  | c :: rest =>
    match c with
    | 'n' => .ok ('\n', rest)
    | 'r' => .ok ('\r', rest)
    | 't' => .ok ('\t', rest)
    | '\\' => .ok ('\\', rest)
    | '\'' => .ok ('\'', rest)
    | '0' => .ok (Char.ofNat 0, rest)
    | _ => .error .BadCharLiteral

/-- Mirrors `impl Resolve for LitChar`: an `Inline` source returns the
stored character; a `Text` source slices the span narrowed by one byte on
each side, takes the first character (escape-processing it when it is a
backslash) and fails with `BadCharLiteral` when the iterator is not then
exhausted.  Error spans are not modelled (only the structured kinds). -/
def resolveLitChar (src : CopySource) (span : Span) (source : List Char) :
    Except ParseErrorKind Char :=
  match src with
  | .Inline c => .ok c
  | .Text =>
    match sourceSlice source (span.narrow 1) with
    | none => .error .BadSlice
    | some chars =>
      match chars with
      | [] => .error .BadCharLiteral
      | c :: it =>
        match (if c = '\\' then parseCharEscape it else .ok (c, it)) with
        | .error e => .error e
        | .ok (c1, leftover) =>
          match leftover with
          | [] => .ok c1
          | _ :: _ => .error .BadCharLiteral

/-! ### Helper lemmas -/

@[simp] lemma deferredOf_nil : deferredOf [] = [] := rfl

@[simp] lemma deferredOf_processed (t : Task) (f : Bool) (ev : List WEvent) :
    deferredOf (.processed t f :: ev) = deferredOf ev := rfl

@[simp] lemma deferredOf_deferred (w : Nat) (ev : List WEvent) :
    deferredOf (.deferred w :: ev) = w :: deferredOf ev := rfl

@[simp] lemma deferredOf_resolved (w : Nat) (f : Bool) (ev : List WEvent) :
    deferredOf (.resolvedWildcard w f :: ev) = deferredOf ev := rfl

@[simp] lemma errorsOf_processed_true (t : Task) (ev : List WEvent) :
    errorsOf (.processed t true :: ev) = .task t :: errorsOf ev := rfl

/-- In a successful drain, the deferred list is exactly the deferred events
of the trace (in order), and the trace holds no resolution events. -/
lemma drain_spec (env : Task → List Task × Bool) :
    ∀ (fuel : Nat) (queue : List Task) (ev : List WEvent) (ws : List Nat),
      drain env fuel queue = some (ev, ws) →
      ws = deferredOf ev ∧ ∀ e ∈ ev, e.isResolved = false := by
  intro fuel
  induction fuel with
  | zero =>
    intro queue ev ws h
    cases queue with
    | nil =>
      simp [drain] at h
      obtain ⟨rfl, rfl⟩ := h
      simp
    | cons t q => simp [drain] at h
  | succ fuel ih =>
    intro queue ev ws h
    cases queue with
    | nil =>
      simp [drain] at h
      obtain ⟨rfl, rfl⟩ := h
      simp
    | cons t q =>
      cases t with
      | expandWildcardImport w =>
        cases hd : drain env fuel q with
        | none => simp [drain, hd] at h
        | some p =>
          obtain ⟨ev1, ws1⟩ := p
          simp [drain, hd] at h
          obtain ⟨rfl, rfl⟩ := h
          obtain ⟨h1, h2⟩ := ih q ev1 ws1 hd
          refine ⟨by simp [h1], ?_⟩
          intro e he
          rcases List.mem_cons.mp he with rfl | he
          · rfl
          · exact h2 e he
      | loadFile id =>
        rcases he : env (.loadFile id) with ⟨new, ok⟩
        cases hd : drain env fuel (q ++ new) with
        | none => simp [drain, he, hd] at h
        | some p =>
          obtain ⟨ev1, ws1⟩ := p
          simp [drain, he, hd] at h
          obtain ⟨rfl, rfl⟩ := h
          obtain ⟨h1, h2⟩ := ih _ ev1 ws1 hd
          refine ⟨by simp [h1], ?_⟩
          intro e he
          rcases List.mem_cons.mp he with rfl | he
          · rfl
          · exact h2 e he
      | expandImport id =>
        rcases he : env (.expandImport id) with ⟨new, ok⟩
        cases hd : drain env fuel (q ++ new) with
        | none => simp [drain, he, hd] at h
        | some p =>
          obtain ⟨ev1, ws1⟩ := p
          simp [drain, he, hd] at h
          obtain ⟨rfl, rfl⟩ := h
          obtain ⟨h1, h2⟩ := ih _ ev1 ws1 hd
          refine ⟨by simp [h1], ?_⟩
          intro e he
          rcases List.mem_cons.mp he with rfl | he
          · rfl
          · exact h2 e he

/-- One drain step on a failing (or succeeding) non-wildcard task. -/
lemma drain_cons_task (env : Task → List Task × Bool) (fuel : Nat)
    (t : Task) (queue : List Task) (hw : t.isWildcard = false) :
    drain env (fuel + 1) (t :: queue) =
      (drain env fuel (queue ++ (env t).1)).map fun p =>
        (WEvent.processed t (!(env t).2) :: p.1, p.2) := by
  cases t with
  | expandWildcardImport w => simp [Task.isWildcard] at hw
  | loadFile id =>
    rcases he : env (.loadFile id) with ⟨new, ok⟩
    simp [drain, he]
  | expandImport id =>
    rcases he : env (.expandImport id) with ⟨new, ok⟩
    simp [drain, he]

/-- Sub-expression lowering is append-only in the instruction sink. -/
lemma compileExpr_prepend (e : CExpr) :
    ∀ (n : Needs) (a b : List Inst),
      compileExpr e n (a ++ b) = a ++ compileExpr e n b := by
  induction e with
  | leaf f => intro n a b; simp [compileExpr]
  | indexSet t i v iht ihi ihv =>
    intro n a b
    simp only [compileExpr]
    rw [ihv, ihi, iht]
    cases hn : n.needsValue <;> simp

/-- Compilation only appends to the instruction sink. -/
lemma compileExpr_append (e : CExpr) (n : Needs) (asm : List Inst) :
    compileExpr e n asm = asm ++ compileExpr e n [] := by
  have := compileExpr_prepend e n asm []
  simpa using this

/-! ### Claims -/

/-- C1: during `Worker::run`, no wildcard import is resolved while any task
remains in the primary FIFO queue — the run trace is the drain trace
(which holds no resolution events: dequeued wildcard-import tasks are only
recorded as deferred) followed by the resolutions of exactly the deferred
wildcard imports, each exactly once, in deferral order. -/
theorem worker_wildcards_after_drain (env : Task → List Task × Bool)
    (envW : Nat → Bool) (fuel : Nat) (queue : List Task) (ev : List WEvent)
    (h : workerRun env envW fuel queue = some ev) :
    ∃ ev1, ev = ev1 ++ resolveAll envW (deferredOf ev1) ∧
      ∀ e ∈ ev1, e.isResolved = false := by
  unfold workerRun at h
  cases hd : drain env fuel queue with
  | none => rw [hd] at h; simp at h
  | some p =>
    obtain ⟨ev1, ws⟩ := p
    rw [hd] at h
    simp at h
    obtain ⟨hws, hres⟩ := drain_spec env fuel queue ev1 ws hd
    exact ⟨ev1, by rw [← h, hws], hres⟩

/-- Witness for C1 at a concrete queue holding a load-file task and a
wildcard import. -/
theorem worker_wildcards_after_drain_witness :
    ∃ ev1,
      ([WEvent.processed (.loadFile 0) false, WEvent.deferred 7,
        WEvent.resolvedWildcard 7 false]
        = ev1 ++ resolveAll (fun _ => true) (deferredOf ev1)) ∧
      ∀ e ∈ ev1, e.isResolved = false :=
  worker_wildcards_after_drain (fun _ => ([], true)) (fun _ => true) 5
    [.loadFile 0, .expandWildcardImport 7] _ (by rfl)

/-- C6: a failure processing a single (non-wildcard) task appends exactly
one error to the sink and drops the task, and the rest of the run is
exactly the drain of the remaining queue — the remaining tasks are still
processed. -/
theorem worker_failure_isolated (env : Task → List Task × Bool)
    (envW : Nat → Bool) (fuel : Nat) (t : Task) (queue : List Task)
    (ev : List WEvent) (hw : t.isWildcard = false) (hf : (env t).2 = false)
    (h : workerRun env envW (fuel + 1) (t :: queue) = some ev) :
    ∃ ev', workerRun env envW fuel (queue ++ (env t).1) = some ev' ∧
      ev = .processed t true :: ev' ∧
      errorsOf ev = .task t :: errorsOf ev' := by
  unfold workerRun at h ⊢
  rw [drain_cons_task env fuel t queue hw, hf] at h
  cases hd : drain env fuel (queue ++ (env t).1) with
  | none => rw [hd] at h; simp at h
  | some p =>
    obtain ⟨ev1, ws⟩ := p
    rw [hd] at h
    simp at h
    exact ⟨ev1 ++ resolveAll envW ws, by simp [hd], h.symm, by rw [← h]; rfl⟩

/-- Witness for C6: a queue holding one failing and one succeeding
load-file task records exactly one error while the second task is still
processed. -/
theorem worker_failure_isolated_witness :
    ∃ ev', workerRun (fun t => if t = .loadFile 0 then ([], false) else ([], true))
        (fun _ => true) 3
        ([Task.loadFile 1] ++
          ((fun t => if t = Task.loadFile 0 then (([] : List Task), false)
            else ([], true)) (Task.loadFile 0)).1) = some ev' ∧
      ([WEvent.processed (.loadFile 0) true, WEvent.processed (.loadFile 1) false]
        = .processed (.loadFile 0) true :: ev') ∧
      errorsOf [WEvent.processed (.loadFile 0) true,
        WEvent.processed (.loadFile 1) false]
        = .task (.loadFile 0) :: errorsOf ev' :=
  worker_failure_isolated
    (fun t => if t = .loadFile 0 then ([], false) else ([], true))
    (fun _ => true) 3 (.loadFile 0) [.loadFile 1] _ (by rfl) (by rfl) (by rfl)

/-- C2: compiling `target[index] = value` emits the value code, then the
index code, then the target code (each lowered with `Needs::Value`), then a
single `IndexSet`, and appends a unit instruction exactly when the needs
flag is `Value`. -/
theorem index_set_lowering (t i v : CExpr) (needs : Needs) (asm : List Inst) :
    compileExpr (.indexSet t i v) needs asm =
      asm ++ compileExpr v .Value [] ++ compileExpr i .Value []
        ++ compileExpr t .Value [] ++ [Inst.IndexSet]
        ++ (if needs.needsValue then [Inst.UnitValue] else []) := by
  simp only [compileExpr]
  rw [compileExpr_append v .Value asm,
    compileExpr_append i .Value (asm ++ compileExpr v .Value []),
    compileExpr_append t .Value
      (asm ++ compileExpr v .Value [] ++ compileExpr i .Value [])]
  cases hn : needs.needsValue <;> simp

/-- C3 counterexample: in `10.checked_div(1)` the number token is *not*
`10` followed by a separate `Dot` token — the dot is consumed into a
fractional number token spanning `[0,3)`, and no `Dot` token occurs in the
output at all. -/
theorem number_dot_counterexample :
    tokenize 100 "10.checked_div(1)".data =
      some (.ok [⟨.LitNumber (.Text ⟨true, .Decimal⟩), ⟨0, 3⟩⟩,
        ⟨.Ident .Text, ⟨3, 14⟩⟩,
        ⟨.Open .Parenthesis, ⟨14, 15⟩⟩,
        ⟨.LitNumber (.Text ⟨false, .Decimal⟩), ⟨15, 16⟩⟩,
        ⟨.Close .Parenthesis, ⟨16, 17⟩⟩]) ∧
    ([⟨.LitNumber (.Text ⟨true, .Decimal⟩), ⟨0, 3⟩⟩,
        ⟨.Ident .Text, ⟨3, 14⟩⟩,
        ⟨.Open .Parenthesis, ⟨14, 15⟩⟩,
        ⟨.LitNumber (.Text ⟨false, .Decimal⟩), ⟨15, 16⟩⟩,
        ⟨.Close .Parenthesis, ⟨16, 17⟩⟩] : List Token).any
      (fun t => t.kind.isDot) = false := by
  constructor
  · rfl
  · rfl

/-- C3 (amended): when the number scanner reaches a `.` while the literal
is not yet fractional, it consumes the dot and marks the literal
fractional; only then, if the following character is not a digit, the scan
stops — so the dot is part of the number token and never becomes a
separate `Dot` token. -/
theorem number_dot_consumed_stops (pos : Nat) (r : List Char)
    (h : (r.head?.map isNumericR).getD false = false) :
    numberLoop pos ('.' :: r) false = (pos + 1, r, true) := by
  simp [numberLoop, h, show isAlphanumericR '.' = false from by decide]

/-- Witness for the amended C3 at the `(10.)` shape: a dot followed by a
closing parenthesis. -/
theorem number_dot_consumed_stops_witness :
    (([')'] : List Char).head?.map isNumericR).getD false = false ∧
      numberLoop 3 ('.' :: [')']) false = (3 + 1, [')'], true) :=
  ⟨by decide, number_dot_consumed_stops 3 [')'] (by decide)⟩

/-- C4: lexing `(10.)` yields exactly three tokens, the middle one a
decimal fractional number literal spanning `[1,4)` — the trailing dot is
consumed into the number token even though it is followed by `)`. -/
theorem lexer_pinned_fractional_dot :
    tokenize 100 "(10.)".data =
      some (.ok [⟨.Open .Parenthesis, ⟨0, 1⟩⟩,
        ⟨.LitNumber (.Text ⟨true, .Decimal⟩), ⟨1, 4⟩⟩,
        ⟨.Close .Parenthesis, ⟨4, 5⟩⟩]) := by
  rfl

/-- C5: the template string with one hole and an escaped backtick lexes as
`Template, Open(Brace), LitStr("foo ", unwrapped, unescaped), Comma,
Ident(bar), Comma, LitStr(" \x60 baz", unwrapped, escaped), Close(Brace)`,
with exactly the pinned spans. -/
theorem lexer_pinned_template :
    tokenize 100 ("\x60foo \x7bbar\x7d \\\x60 baz\x60").data =
      some (.ok [⟨.Template, ⟨0, 1⟩⟩,
        ⟨.Open .Brace, ⟨0, 1⟩⟩,
        ⟨.LitStr (.Text ⟨false, false⟩), ⟨1, 5⟩⟩,
        ⟨.Comma, ⟨5, 6⟩⟩,
        ⟨.Ident .Text, ⟨6, 9⟩⟩,
        ⟨.Comma, ⟨10, 17⟩⟩,
        ⟨.LitStr (.Text ⟨true, false⟩), ⟨10, 17⟩⟩,
        ⟨.Close .Brace, ⟨17, 18⟩⟩]) := by
  rfl

/-- C7: the input `'asdf 'a' "foo bar"` lexes as a label spanning `[0,5)`,
a character literal spanning `[6,9)` and a string literal spanning
`[10,19)`. -/
theorem lexer_pinned_label_char :
    tokenize 100 "'asdf 'a' \"foo bar\"".data =
      some (.ok [⟨.Label .Text, ⟨0, 5⟩⟩,
        ⟨.LitChar .Text, ⟨6, 9⟩⟩,
        ⟨.LitStr (.Text ⟨false, true⟩), ⟨10, 19⟩⟩]) := by
  rfl

/-- C10: at an interpolation hole whose preceding literal segment is empty,
the template scanner pushes no string-literal token, and pushes a synthetic
comma exactly when the template's expression count is positive; hence
`\x60\x7ba\x7d\x7bb\x7d\x60` lexes as Template, Open(Brace), Ident, Comma,
Ident, Close(Brace) with no string-literal token. -/
theorem template_empty_segment :
    (∀ (srcLen n pos : Nat) (ms : List LexerMode) (buf : List Token)
        (r : List Char),
      templateLoop srcLen (.Template n :: ms) buf pos pos ('{' :: r) false =
        .ok ⟨⟨srcLen, pos + 1, r⟩, .Default 1 :: .Template n :: ms,
          buf ++ (if n > 0 then [⟨.Comma, ⟨pos, pos + 1⟩⟩] else [])⟩) ∧
    tokenize 100 ("\x60\x7ba\x7d\x7bb\x7d\x60").data =
      some (.ok [⟨.Template, ⟨0, 1⟩⟩,
        ⟨.Open .Brace, ⟨0, 1⟩⟩,
        ⟨.Ident .Text, ⟨2, 3⟩⟩,
        ⟨.Comma, ⟨4, 5⟩⟩,
        ⟨.Ident .Text, ⟨5, 6⟩⟩,
        ⟨.Close .Brace, ⟨7, 8⟩⟩]) := by
  constructor
  · intro srcLen n pos ms buf r
    simp [templateLoop]
  · rfl

/-- C8: `PathSegment::parse` accepts the `self` keyword (`Kind::Self_`) as
a path segment, but the non-consuming peeks return `false` for it — while
returning `true` for a leading `::`, an identifier, `crate`, `super` and
`Self` — so `self` cannot begin a peeked path. -/
theorem path_peek_missing_self :
    pathSegmentParseAccepts .Self_ = true ∧
    pathPeek (some ⟨.Self_, ⟨0, 4⟩⟩) none = false ∧
    pathSegmentPeek (some ⟨.Self_, ⟨0, 4⟩⟩) none = false ∧
    pathPeek (some ⟨.ColonColon, ⟨0, 2⟩⟩) none = true ∧
    pathPeek (some ⟨.Ident .Text, ⟨0, 3⟩⟩) none = true ∧
    pathPeek (some ⟨.Crate, ⟨0, 5⟩⟩) none = true ∧
    pathPeek (some ⟨.Super, ⟨0, 5⟩⟩) none = true ∧
    pathPeek (some ⟨.SelfType, ⟨0, 4⟩⟩) none = true := by
  decide

/-- C9: resolving a character literal with an `Inline` source returns the
stored character for every source buffer; with a `Text` source it reads
exactly the span narrowed by one byte on each side, fails with
`BadCharLiteral` on an empty slice or on a multi-character slice that does
not start with a backslash, and returns a value only when the slice is a
single character or one backslash escape consuming the whole slice. -/
theorem lit_char_resolve_spec :
    (∀ (source : List Char) (span : Span) (c : Char),
        resolveLitChar (.Inline c) span source = .ok c) ∧
    (∀ (source : List Char) (span : Span),
        sourceSlice source (span.narrow 1) = some [] →
        resolveLitChar .Text span source = .error .BadCharLiteral) ∧
    (∀ (source : List Char) (span : Span) (c d : Char) (r : List Char),
        c ≠ '\\' →
        sourceSlice source (span.narrow 1) = some (c :: d :: r) →
        resolveLitChar .Text span source = .error .BadCharLiteral) ∧
    (∀ (source : List Char) (span : Span) (c : Char),
        resolveLitChar .Text span source = .ok c →
        ∃ sl, sourceSlice source (span.narrow 1) = some sl ∧
          (sl = [c] ∨ ∃ r, sl = '\\' :: r ∧ parseCharEscape r = .ok (c, []))) := by
  refine ⟨fun _ _ _ => rfl, ?_, ?_, ?_⟩
  · intro source span h
    simp [resolveLitChar, h]
  · intro source span c d r hc h
    simp [resolveLitChar, h, hc]
  · intro source span c h
    unfold resolveLitChar at h
    revert h
    cases hs : sourceSlice source (span.narrow 1) with
    | none => intro h; exact absurd h (by simp)
    | some chars =>
      cases chars with
      | nil => intro h; exact absurd h (by simp)
      | cons c0 it =>
        by_cases hb : c0 = '\\'
        · subst hb
          cases hpe : parseCharEscape it with
          | error e => intro h; simp [hpe] at h
          | ok p =>
            obtain ⟨c1, leftover⟩ := p
            cases leftover with
            | nil =>
              intro h
              simp [hpe] at h
              exact ⟨'\\' :: it, rfl, .inr ⟨it, rfl, by rw [hpe, h]⟩⟩
            | cons x xs => intro h; simp [hpe] at h
        · cases it with
          | nil =>
            intro h
            simp [hb] at h
            exact ⟨[c0], rfl, .inl (by rw [h])⟩
          | cons d r => intro h; simp [hb] at h

/-- Witness for C9: the four-byte source `'ab'` (slice `ab` after
narrowing) is rejected as a bad character literal. -/
theorem lit_char_resolve_spec_witness :
    resolveLitChar .Text ⟨0, 4⟩ "'ab'".data = .error .BadCharLiteral :=
  lit_char_resolve_spec.2.2.1 "'ab'".data ⟨0, 4⟩ 'a' 'b' [] (by decide) (by decide)

end St
